import Mathlib

/-
  Verification development for the syntax parser-generation toolkit.

  Shallow embeddings of:
  - the LL(1) parsing engine (src/ll/ll-parser.js), namespace LLP;
  - the generated TypeScript tokenizer runtime (templates/tokenizer.template.ts),
    namespace Tok;
  - the dictionary-conversion primitives of the TypeScript parser-generator trait
    (src/plugins/typescript/lr/lr-parser-generator-typescript.js), namespace Gen.

  Machine integers are modelled as Nat / Int (all involved JS numbers are small
  non-negative integers), JS exceptions as the error case of Except, and loops
  whose termination is not structurally evident as fuel-indexed recursion where
  running out of fuel yields Option.none (divergence witness).
-/

/-- The EOF special symbol of the tool (special-symbols.js: the dollar marker). -/
def EOF : String := "$"

/-- The epsilon special symbol of the tool (the empty production marker). -/
def EPSILON : String := "ε"

namespace LLP

/-- Token as consumed by the LL engine: the repository tokenizer hands the parser
objects with a string type (terminal name) and a string value (matched text). -/
structure Token where
  type : String
  value : String
deriving DecidableEq

/-- The grammar collaborator interface used by LLParser: getStartSymbol(),
isTokenSymbol(symbol) and getProduction(n).getRHS(). GrammarSymbol objects are
wrapped strings, so symbols are embedded as plain strings; getProduction n gives
the ordered right-hand side of production number n. -/
structure Grammar where
  startSymbol : String
  isTokenSymbol : String → Bool
  getProduction : Nat → List String

/-- The LL parsing table: table.get()[nonTerminal][tokenType]. An absent JS
property is modelled as Option.none. -/
abbrev Table := String → String → Option Nat

/-- The mutable state of LLParser.parse: the parsing stack (a JS array, index 0
is the bottom and the last element is the top), the production-number trace
(_productionNumbers), the current token, and the not-yet-consumed remainder of
the token stream. -/
structure PState where
  stack : List String
  productionNumbers : List Nat
  token : Token
  input : List Token
deriving DecidableEq

/-- Modelled from the spec: the Tokenizer used by the LL engine (src/tokenizer,
not included under src/) ends its stream with an EOF token whose type and value
are both the EOF marker. -/
def eofToken : Token := { type := EOF, value := EOF }

/-- Modelled from the spec: tokenizer.getNextToken() over the remaining stream;
past the end it keeps returning the EOF token. -/
def nextToken : List Token → Token × List Token
  | [] => (eofToken, [])
  | t :: ts => (t, ts)

/-- Modelled from the spec: tokenizer.hasMoreTokens() is true until the EOF
token itself has been handed out, i.e. while the stream is non-empty. -/
def hasMoreTokens (input : List Token) : Bool :=
  !input.isEmpty

/-- A JS TypeError raised by dereferencing undefined (e.g. popping an empty
stack and then calling a method on the popped value). -/
def typeErrorMessage : String :=
  "TypeError: Cannot read properties of undefined"

/-- Embeds _unexpectedToken / _unexpectedEndOfInput composed with _parseError: the
message of the exception thrown when a table lookup fails. The end-of-input
variant is chosen exactly when the current token's value is the EOF marker. -/
def unexpectedTokenMessage (token : Token) : String :=
  if token.value == EOF then "Parse error: Unexpected end of input."
  else "Parse error: Unexpected token: " ++ token.value ++ "."

/-- Embeds _getDerivedRHS(top, token): it looks up the production number for the stack
symbol and current token type; the JS guard is falsy (if (!nextProductionNumber))
so both an absent cell and a stored 0 raise the unexpected-token error.
On success it returns the production number together with the right-hand side
reversed (slice().reverse()) ready to be pushed. -/
def getDerivedRHS (g : Grammar) (tbl : Table) (top : String) (token : Token) :
    Except String (Nat × List String) :=
  match tbl top token.type with
  | none => .error (unexpectedTokenMessage token)
  | some n =>
    if n == 0 then .error (unexpectedTokenMessage token)
    else .ok (n, (g.getProduction n).reverse)

/-- Embeds _doDerivation(top, token): it records the production number in the trace and
pushes the reversed right-hand side, unless its first element (derivedRHS[0],
the last symbol of the RHS) is the epsilon symbol, in which case nothing is
pushed. An empty derived RHS would make the JS code dereference undefined. -/
def doDerivation (g : Grammar) (tbl : Table) (st : PState) (top : String)
    (token : Token) : Except String PState :=
  match getDerivedRHS g tbl top token with
  | .error e => .error e
  | .ok (n, derivedRHS) =>
    let st1 : PState := { st with productionNumbers := st.productionNumbers ++ [n] }
    match derivedRHS with
    | [] => .error typeErrorMessage
    | r :: _ =>
      if r == EPSILON then .ok st1
      else .ok { st1 with stack := st1.stack ++ derivedRHS }

/-- The do-while loop of parse: pop the top stack symbol; a terminal equal to
the current token type just advances the cursor, otherwise a derivation is
performed; the loop repeats while the tokenizer has more tokens or the stack
depth exceeds 1. Fuel-indexed; none models divergence. -/
def mainLoop (g : Grammar) (tbl : Table) : Nat → PState → Option (Except String PState)
  | 0, _ => none
  | fuel + 1, st =>
    match st.stack.getLast? with
    | none => some (.error typeErrorMessage)
    | some top =>
      let st1 : PState := { st with stack := st.stack.dropLast }
      if g.isTokenSymbol top && top == st1.token.type then
        let next := nextToken st1.input
        let st2 : PState := { st1 with token := next.1, input := next.2 }
        if hasMoreTokens st2.input || decide (1 < st2.stack.length) then
          mainLoop g tbl fuel st2
        else some (.ok st2)
      else
        match doDerivation g tbl st1 top st1.token with
        | .error e => some (.error e)
        | .ok st2 =>
          if hasMoreTokens st2.input || decide (1 < st2.stack.length) then
            mainLoop g tbl fuel st2
          else some (.ok st2)

/-- The end-of-input derivation loop of parse (while stack.length !== 1): keeps
deriving the popped symbol against the current token. Fuel-indexed. -/
def epsLoop (g : Grammar) (tbl : Table) : Nat → PState → Option (Except String PState)
  | 0, _ => none
  | fuel + 1, st =>
    if st.stack.length == 1 then some (.ok st)
    else
      match st.stack.getLast? with
      | none => some (.error typeErrorMessage)
      | some top =>
        match doDerivation g tbl { st with stack := st.stack.dropLast } top st.token with
        | .error e => .error e |> some
        | .ok st2 => epsLoop g tbl fuel st2

/-- The final acceptance check of parse: the stack must hold exactly the EOF
symbol at index 0 (after the loops its length is 1) and the current token's
value must be the EOF marker; otherwise the stack-not-empty diagnostic is
raised, listing the remaining stack symbols (JS array-to-string, i.e. joined
with commas) and the current token value. -/
def finalCheck (st : PState) : Except String String :=
  if st.stack.headD "" != EOF || st.token.value != EOF then
    .error ("Parse error: stack is not empty: " ++
      String.intercalate "," st.stack ++ ", " ++ st.token.value)
  else .ok "accept"

/-- The state set up at the top of parse(string): stack [EOF, StartSymbol] with
EOF at the bottom, empty production-number trace, and the first token fetched. -/
def initState (g : Grammar) (input : List Token) : PState :=
  { stack := [EOF, g.startSymbol]
    productionNumbers := []
    token := (nextToken input).1
    input := (nextToken input).2 }

/-- LLParser.parse over the token stream produced for the input string: runs the
main loop, then the end-of-input derivation loop, then the final check. The
result .ok "accept" models the JS return value with status accept; .error
models a thrown parse error; none models divergence (fuel exhausted at every
bound). -/
def parse (g : Grammar) (tbl : Table) (fuel : Nat) (input : List Token) :
    Option (Except String String) :=
  match mainLoop g tbl fuel (initState g input) with
  | none => none
  | some (.error e) => some (.error e)
  | some (.ok st1) =>
    match epsLoop g tbl fuel st1 with
    | none => none
    | some (.error e) => some (.error e)
    | some (.ok st2) => some (finalCheck st2)

/-- Scenario-A grammar: S to a S b (production 1) and S to epsilon
(production 2); a and b are the terminals. -/
def gA : Grammar :=
  { startSymbol := "S"
    isTokenSymbol := fun s => s == "a" || s == "b"
    getProduction := fun n =>
      if n == 1 then ["a", "S", "b"]
      else if n == 2 then [EPSILON]
      else [] }

/-- Scenario-A parsing table: S with a gives 1, S with b or EOF gives 2. -/
def tblA : Table := fun nt t =>
  if nt == "S" then
    if t == "a" then some 1
    else if t == "b" then some 2
    else if t == EOF then some 2
    else none
  else none

/-- Token stream for the Scenario-A input aabb, ended by the EOF token. -/
def inputA : List Token :=
  [{ type := "a", value := "a" }, { type := "a", value := "a" },
   { type := "b", value := "b" }, { type := "b", value := "b" }, eofToken]

/-- The state in which the main loop (and the end-of-input loop) finishes on the
Scenario-A run: only the EOF symbol remains and the EOF token is current. -/
def stA : PState :=
  { stack := [EOF], productionNumbers := [1, 1, 2], token := eofToken, input := [] }

/-- A grammar whose sole production rewrites S to S: every derivation step
leaves the stack size unchanged. -/
def g4 : Grammar :=
  { startSymbol := "S"
    isTokenSymbol := fun _ => false
    getProduction := fun _ => ["S"] }

/-- A table in which every lookup succeeds with production number 1. -/
def tbl4 : Table := fun _ _ => some 1

/-- A table whose every cell is a present 0: lookups find a stored value yet the
falsy guard treats it as absent. -/
def tbl0 : Table := fun _ _ => some 0

end LLP

namespace Tok

/-- Token record of the generated TypeScript tokenizer: encoded numeric type,
matched value, and positional data (offsets, lines, columns). Omitted
constructor arguments default to 0 in the template. -/
structure Token where
  type : Nat
  value : String
  startOffset : Nat := 0
  endOffset : Nat := 0
  startLine : Nat := 0
  endLine : Nat := 0
  startColumn : Nat := 0
  endColumn : Nat := 0
deriving DecidableEq

/-- The instance state of the Tokenizer class: input string, lexer-state stack,
cursor, token queue, line/column tracking, location data of the last match, and
the yytext/yyleng globals (module-level in the template, carried here in the
state record). -/
structure TokState where
  string : String
  states : List String
  cursor : Nat
  tokensQueue : List String
  currentLine : Nat
  currentColumn : Nat
  currentLineBeginOffset : Nat
  tokenStartOffset : Nat
  tokenEndOffset : Nat
  tokenStartLine : Nat
  tokenEndLine : Nat
  tokenStartColumn : Nat
  tokenEndColumn : Nat
  yytext : String
  yyleng : Nat
deriving DecidableEq

/-- A lex-rule matcher abstracts string.match(regexp): it yields the matched
text (matched[0]) or none. -/
abbrev Matcher := String → Option String

/-- Result of a lex-rule handler: a falsy value (null, undefined, the empty
string) meaning skip; a single truthy token-type name; or an array of token-type
names (arrays produced by the tool always carry at least one element, encoded
here as head plus tail). -/
inductive LexHandlerResult where
  | nothing
  | token (name : String)
  | tokens (first : String) (rest : List String)
deriving DecidableEq

/-- A lex-rule handler: invoked on the tokenizer state (it may push or pop lexer
states and read yytext), returning the updated state and its result. -/
abbrev LexHandler := TokState → TokState × LexHandlerResult

/-- The generated data the template placeholders are filled with: the tokens
map (token-type name to encoded number), the lexRules array (matcher plus
handler, addressed by rule index), and lexRulesByConditions (lexer state name
to the list of rule indices active in that state). -/
structure LexEnv where
  tokensMap : String → Nat
  lexRules : Nat → Matcher × LexHandler
  lexRulesByConditions : String → List Nat

/-- string.slice(cursor), character-based. -/
def strSlice (s : String) (n : Nat) : String :=
  String.mk (s.data.drop n)

/-- The special EOF_TOKEN constant: new Token(Number(tokensMap[EOF]), ''). -/
def eofToken (env : LexEnv) : Token :=
  { type := env.tokensMap EOF, value := "" }

/-- initString(tokenizingString): resets every instance field; the lexer-state
stack becomes [INITIAL], cursor 0, empty queue, line 1, column 0. -/
def initString (s : String) : TokState :=
  { string := s
    states := ["INITIAL"]
    cursor := 0
    tokensQueue := []
    currentLine := 1
    currentColumn := 0
    currentLineBeginOffset := 0
    tokenStartOffset := 0
    tokenEndOffset := 0
    tokenStartLine := 1
    tokenEndLine := 1
    tokenStartColumn := 0
    tokenEndColumn := 0
    yytext := ""
    yyleng := 0 }

/-- hasMoreTokens(): cursor has not passed one position beyond the last
character (the extra pseudo-position models the EOF emission). -/
def hasMoreTokens (st : TokState) : Bool :=
  st.cursor ≤ st.string.length

/-- isEOF(): the cursor sits exactly at the end of the text. -/
def isEOF (st : TokState) : Bool :=
  st.cursor == st.string.length

/-- getCurrentState(): the top (last element) of the lexer-state stack. -/
def getCurrentState (st : TokState) : String :=
  st.states.getLastD ""

/-- pushState(state): pushes a lexer state on the stack. -/
def pushState (st : TokState) (state : String) : TokState :=
  { st with states := st.states ++ [state] }

/-- popState(): removes and returns the top state when more than one state
remains; otherwise leaves the stack untouched and returns the current state. -/
def popState (st : TokState) : String × TokState :=
  if 1 < st.states.length then
    (st.states.getLastD "", { st with states := st.states.dropLast })
  else (getCurrentState st, st)

/-- begin(state): alias for pushState. -/
def begin (st : TokState) (state : String) : TokState :=
  pushState st state

/-- Embeds _captureLocation(matched): it records the absolute offsets and the line/column
data of the match, scanning the matched text for newlines to advance the
running line counter and the line-start offset. -/
def captureLocation (st : TokState) (matched : String) : TokState :=
  let tokenStartOffset := st.cursor
  let tokenStartLine := st.currentLine
  let tokenStartColumn := tokenStartOffset - st.currentLineBeginOffset
  let scan := matched.data.enum.foldl
    (fun (acc : Nat × Nat) (p : Nat × Char) =>
      if p.2 = '\n' then (acc.1 + 1, tokenStartOffset + p.1 + 1) else acc)
    (st.currentLine, st.currentLineBeginOffset)
  let tokenEndOffset := st.cursor + matched.length
  let endColumn := tokenEndOffset - scan.2
  { st with
    tokenStartOffset := tokenStartOffset
    tokenStartLine := tokenStartLine
    tokenStartColumn := tokenStartColumn
    currentLine := scan.1
    currentLineBeginOffset := scan.2
    tokenEndOffset := tokenEndOffset
    tokenEndLine := scan.1
    tokenEndColumn := endColumn
    currentColumn := endColumn }

/-- Embeds _match(string, regexp): on a match it captures its location, advances the
cursor past it and returns the matched text; otherwise leaves the state
untouched and returns none. -/
def tmatch (st : TokState) (string : String) (matcher : Matcher) :
    TokState × Option String :=
  match matcher string with
  | some matched =>
    let st1 := captureLocation st matched
    ({ st1 with cursor := st1.cursor + matched.length }, some matched)
  | none => (st, none)

/-- Embeds _toToken(tokenType, yytext defaulting to the empty string): it materializes a Token from the encoded
type and the location data currently stored on the tokenizer. -/
def toToken (env : LexEnv) (st : TokState) (tokenType : String) (yytext : String) :
    Token :=
  { type := env.tokensMap tokenType
    value := yytext
    startOffset := st.tokenStartOffset
    endOffset := st.tokenEndOffset
    startLine := st.tokenStartLine
    endLine := st.tokenEndLine
    startColumn := st.tokenStartColumn
    endColumn := st.tokenEndColumn }

/-- The state updates performed between a successful match and the handler
call: the manual cursor bump for an empty match at the end of input, then the
yytext / yyleng globals are set to the matched text. -/
def prepMatchState (st : TokState) (string matched : String) : TokState :=
  let st1 := if string = "" ∧ matched = "" then { st with cursor := st.cursor + 1 } else st
  { st1 with yytext := matched, yyleng := matched.length }

/-- Outcome of the rule-scanning loop of getNextToken: no rule matched, or a
rule matched and its handler skipped, or a token was produced. -/
inductive TryOutcome where
  | noMatch (st : TokState)
  | skip (st : TokState)
  | emitted (t : Token) (st : TokState)
deriving DecidableEq

/-- The body of the loop of getNextToken once a rule has matched: set
yytext/yyleng (after the empty-match end-of-input cursor bump), call the
handler; a falsy result skips; an array result queues every name after the
first (unshift) and emits the first; a single name is emitted; the emitted
token carries the matched text as its value. -/
def handleMatch (env : LexEnv) (st : TokState) (string matched : String)
    (handler : LexHandler) : TryOutcome :=
  let p := handler (prepMatchState st string matched)
  match p.2 with
  | .nothing => .skip p.1
  | .token name => .emitted (toToken env p.1 name matched) p.1
  | .tokens first rest =>
    let st2 := if 0 < rest.length then
        { p.1 with tokensQueue := rest ++ p.1.tokensQueue }
      else p.1
    .emitted (toToken env st2 first matched) st2

/-- The for-loop of getNextToken over the rule indices registered for the
current lexer state: each rule's matcher is tried in the fixed registered
order against the remaining text; the first rule whose matcher succeeds wins
and its handler is invoked; a failed matcher leaves the state untouched and
the next rule is tried. -/
def tryRules (env : LexEnv) (st : TokState) (string : String) :
    List Nat → TryOutcome
  | [] => .noMatch st
  | i :: rest =>
    let rule := env.lexRules i
    let m := tmatch st string rule.1
    match m.2 with
    | none => tryRules env st string rest
    | some matched => handleMatch env m.1 string matched rule.2

/-- throwUnexpectedToken(symbol, line, column): the message of the SyntaxError
raised when no rule matches and input remains, rendering the offending source
line with a caret under the failing column. -/
def unexpectedTokenError (st : TokState) (string : String) : String :=
  let lineSource := (st.string.splitOn "\n").getD (st.currentLine - 1) "undefined"
  let pad := String.mk (List.replicate st.currentColumn ' ')
  "\n\n" ++ lineSource ++ "\n" ++ pad ++ "^\n" ++
    "Unexpected token: \"" ++ String.mk (string.data.take 1) ++ "\" at " ++
    toString st.currentLine ++ ":" ++ toString st.currentColumn ++ "."

/-- getNextToken(): a queued token-type is dequeued and materialized with the
stored location data and an empty value; past the end of input the EOF token is
returned; otherwise the rules of the current lexer state are tried in order
against the remaining text - a skip recurses (fuel-indexed), a match emits its
token, and with no match either the end-of-text sentinel is consumed once
(returning EOF) or the unexpected-token error is raised. -/
def getNextToken (env : LexEnv) : Nat → TokState → Option (Except String (Token × TokState))
  | 0, _ => none
  | fuel + 1, st =>
    match st.tokensQueue with
    | q :: qs => some (.ok (toToken env st q "", { st with tokensQueue := qs }))
    | [] =>
      if !hasMoreTokens st then some (.ok (eofToken env, st))
      else
        let string := strSlice st.string st.cursor
        match tryRules env st string (env.lexRulesByConditions (getCurrentState st)) with
        | .skip st1 => getNextToken env fuel st1
        | .emitted t st1 => some (.ok (t, st1))
        | .noMatch st1 =>
          if isEOF st1 then some (.ok (eofToken env, { st1 with cursor := st1.cursor + 1 }))
          else some (.error (unexpectedTokenError st1 string))

/-- A lexer-state-stack operation: pushState, popState or begin. -/
inductive StateOp where
  | push (s : String)
  | pop
  | beginOp (s : String)

/-- Apply one state operation to the tokenizer state. -/
def applyStateOp (st : TokState) (op : StateOp) : TokState :=
  match op with
  | .push s => pushState st s
  | .pop => (popState st).2
  | .beginOp s => begin st s

/-- Concrete environment for the multi-token scenario: a whitespace-skipping
rule and a rule matching an opening brace whose handler returns the array
[LBRACE, STRING]. -/
def mEnv : LexEnv :=
  { tokensMap := fun n =>
      if n == "LBRACE" then 5 else if n == "STRING" then 6 else if n == EOF then 7 else 0
    lexRules := fun i =>
      if i == 0 then
        (fun s => if s.data.take 1 = [' '] then some " " else none,
         fun st => (st, .nothing))
      else if i == 1 then
        (fun s => if s.data.take 1 = ['\x7b'] then some "\x7b" else none,
         fun st => (st, .tokens "LBRACE" ["STRING"]))
      else (fun _ => none, fun st => (st, .nothing))
    lexRulesByConditions := fun c => if c == "INITIAL" then [0, 1] else [] }

/-- Concrete environment for the first-match-wins scenario: rule 0 matches a
space, rule 1 matches the two characters ab, rule 2 would match the longer
abc; all return single token names. -/
def env2 : LexEnv :=
  { tokensMap := fun n =>
      if n == "AB" then 5 else if n == "ABC" then 6 else if n == EOF then 7 else 0
    lexRules := fun i =>
      if i == 0 then
        (fun s => if s.data.take 1 = [' '] then some " " else none,
         fun st => (st, .nothing))
      else if i == 1 then
        (fun s => if s.data.take 2 = ['a', 'b'] then some "ab" else none,
         fun st => (st, .token "AB"))
      else if i == 2 then
        (fun s => if s.data.take 3 = ['a', 'b', 'c'] then some "abc" else none,
         fun st => (st, .token "ABC"))
      else (fun _ => none, fun st => (st, .nothing))
    lexRulesByConditions := fun c => if c == "INITIAL" then [0, 1, 2] else [] }

end Tok

namespace Gen

/-- A JS value handed to the dictionary-conversion primitives: a string, a
number, or an array of integers (the only array shape the trait supports). -/
inductive JSVal where
  | str (s : String)
  | num (n : Int)
  | arr (l : List Int)
deriving DecidableEq

/-- JS template-literal coercion of a value to a string. -/
def jsToString : JSVal → String
  | .str s => s
  | .num n => toString n
  | .arr l => String.intercalate "," (l.map toString)

/-- Approximation of the JS Number(string) coercion as rendered into the
output text: the empty string coerces to 0, an integer literal to itself, and
anything else to NaN. -/
def jsNumberOfString (s : String) : String :=
  if s = "" then "0"
  else match s.toInt? with
  | some n => toString n
  | none => "NaN"

/-- Number(value) for a non-array value (arrays are handled before the type
switch and never reach this conversion). -/
def jsNumberOfVal : JSVal → String
  | .str s => jsNumberOfString s
  | .num n => toString n
  | .arr _ => "NaN"

/-- Double-quoted rendering used for string keys and values. -/
def quoteJS (s : String) : String :=
  "\"" ++ s ++ "\""

/-- Embeds _dictKey(key, keyType): it renders a dictionary key for the declared type;
any type other than string or number raises the incorrect-type generation
error naming that type. -/
def dictKey (key : String) (keyType : String) : Except String String :=
  match keyType with
  | "string" => .ok (quoteJS key)
  | "number" => .ok (jsNumberOfString key)
  | _ => .error ("_dictKey: Incorrect type " ++ keyType)

/-- Embeds _dictValue(value, valueType): an array value renders as a fixed int array
regardless of the declared type; otherwise a string or number type renders the
value, and any other type raises the incorrect-value generation error naming
that type. -/
def dictValue (value : JSVal) (valueType : String) : Except String String :=
  match value with
  | .arr l =>
    .ok ("new int[] \x7b " ++ String.intercalate ", " (l.map toString) ++ " \x7d")
  | v =>
    match valueType with
    | "string" => .ok (quoteJS (jsToString v))
    | "number" => .ok (jsNumberOfVal v)
    | _ => .error ("_dictValue: Incorrect value " ++ valueType)

/-- Whether a conversion succeeded (did not raise). -/
def isOkE {α β : Type} : Except α β → Bool
  | .ok _ => true
  | .error _ => false

end Gen

namespace LLP

theorem getDerivedRHS_some (g : Grammar) (tbl : Table) (top : String) (token : Token)
    (n : Nat) (hc : tbl top token.type = some n) (h0 : n ≠ 0) :
    getDerivedRHS g tbl top token = .ok (n, (g.getProduction n).reverse) := by
  unfold getDerivedRHS
  rw [hc]
  simp [h0]

theorem getDerivedRHS_fail (g : Grammar) (tbl : Table) (top : String) (token : Token)
    (hc : tbl top token.type = none ∨ tbl top token.type = some 0) :
    getDerivedRHS g tbl top token = .error (unexpectedTokenMessage token) := by
  unfold getDerivedRHS
  rcases hc with hc | hc
  · rw [hc]
  · rw [hc]
    simp

theorem epsLoop_ok_length (g : Grammar) (tbl : Table) :
    ∀ (fuel : Nat) (st st' : PState),
      epsLoop g tbl fuel st = some (.ok st') → st'.stack.length = 1 := by
  intro fuel
  induction fuel with
  | zero => intro st st' h; simp [epsLoop] at h
  | succ n ih =>
    intro st st' h
    rw [epsLoop] at h
    by_cases h1 : (st.stack.length == 1) = true
    · rw [if_pos h1] at h
      have hst : st = st' := by simpa using h
      subst hst
      simpa using h1
    · rw [if_neg h1] at h
      cases hg : st.stack.getLast? with
      | none => simp [hg] at h
      | some top =>
        simp only [hg] at h
        cases hd : doDerivation g tbl { st with stack := st.stack.dropLast } top st.token with
        | error e => simp [hd] at h
        | ok st2 =>
          simp only [hd] at h
          exact ih st2 st' h

/-- C3: at a derivation step for a non-terminal the engine appends the chosen
production number to the trace and pushes the reversed right-hand side, so a
right-hand side of length k (one whose derived head is not the epsilon symbol)
adds exactly k stack entries in right-to-left order, leaving the first
right-hand symbol on top, while the epsilon right-hand side adds none. -/
theorem doDerivation_pushes_reversed (g : Grammar) (tbl : Table) (st : PState)
    (top : String) (token : Token) (n : Nat)
    (hc : tbl top token.type = some n) (h0 : n ≠ 0) :
    (∀ r rs, (g.getProduction n).reverse = r :: rs → r ≠ EPSILON →
      doDerivation g tbl st top token =
        .ok { st with stack := st.stack ++ (g.getProduction n).reverse,
                      productionNumbers := st.productionNumbers ++ [n] } ∧
      (st.stack ++ (g.getProduction n).reverse).length =
        st.stack.length + (g.getProduction n).length ∧
      (st.stack ++ (g.getProduction n).reverse).getLast? = (g.getProduction n).head?) ∧
    (g.getProduction n = [EPSILON] →
      doDerivation g tbl st top token =
        .ok { st with productionNumbers := st.productionNumbers ++ [n] }) := by
  have hok := getDerivedRHS_some g tbl top token n hc h0
  constructor
  · intro r rs hrev hne
    refine ⟨?_, ?_, ?_⟩
    · simp [doDerivation, hok, hrev, hne]
    · simp
    · rw [List.getLast?_append, List.getLast?_reverse]
      cases hp : g.getProduction n with
      | nil => rw [hp] at hrev; simp at hrev
      | cons a as => simp
  · intro hp
    simp [doDerivation, hok, hp, EPSILON]

/-- Witness for C3: in the Scenario-A grammar, deriving S with the current
token a pushes the three symbols of production 1 reversed, and deriving S with
the token b applies the epsilon production 2 and pushes nothing. -/
theorem doDerivation_pushes_reversed_witness :
    doDerivation gA tblA stA "S" { type := "a", value := "a" } =
      .ok { stA with stack := stA.stack ++ ["b", "S", "a"],
                     productionNumbers := stA.productionNumbers ++ [1] } ∧
    doDerivation gA tblA stA "S" { type := "b", value := "b" } =
      .ok { stA with productionNumbers := stA.productionNumbers ++ [2] } := by
  constructor
  · exact ((doDerivation_pushes_reversed gA tblA stA "S" { type := "a", value := "a" } 1
      (by rfl) (by decide)).1 "b" ["S", "a"] (by rfl) (by decide)).1
  · exact (doDerivation_pushes_reversed gA tblA stA "S" { type := "b", value := "b" } 2
      (by rfl) (by decide)).2 (by rfl)

/-- C5 (amended): for every stack-top symbol and current token, a table cell
that is absent or holds the falsy production number 0 makes the engine raise,
choosing the unexpected-end-of-input diagnostic exactly when the current
token's value is the EOF marker and otherwise the unexpected-token diagnostic
naming the token's value; a present cell holding a nonzero production number
never raises at the lookup. -/
theorem table_lookup_failure (g : Grammar) (tbl : Table) (top : String) (token : Token) :
    ((tbl top token.type = none ∨ tbl top token.type = some 0) →
      getDerivedRHS g tbl top token = .error (unexpectedTokenMessage token) ∧
      (token.value = EOF →
        unexpectedTokenMessage token = "Parse error: Unexpected end of input.") ∧
      (token.value ≠ EOF →
        unexpectedTokenMessage token =
          "Parse error: Unexpected token: " ++ token.value ++ ".")) ∧
    (∀ n, tbl top token.type = some n → n ≠ 0 →
      getDerivedRHS g tbl top token = .ok (n, (g.getProduction n).reverse)) := by
  constructor
  · intro hc
    refine ⟨getDerivedRHS_fail g tbl top token hc, ?_, ?_⟩
    · intro hv
      rw [unexpectedTokenMessage, if_pos (by simpa using hv)]
    · intro hv
      rw [unexpectedTokenMessage, if_neg (by simpa using hv)]
  · intro n hc h0
    exact getDerivedRHS_some g tbl top token n hc h0

/-- Counterexample for C5 as stated: a present cell (it stores the production
number 0) nevertheless raises at the lookup, because the JS falsy guard cannot
tell a stored 0 from an absent cell. -/
theorem present_cell_raises_counterexample :
    tbl0 "S" "a" = some 0 ∧
    getDerivedRHS gA tbl0 "S" { type := "a", value := "a" } =
      .error "Parse error: Unexpected token: a." := by
  constructor
  · rfl
  · rfl

/-- Witness for C5 (amended): with the Scenario-A table, the absent cell for
(S, c) raises the unexpected-token diagnostic naming c, and the present
nonzero cell for (S, a) succeeds with production 1. -/
theorem table_lookup_failure_witness :
    getDerivedRHS gA tblA "S" { type := "c", value := "c" } =
      .error "Parse error: Unexpected token: c." ∧
    getDerivedRHS gA tblA "S" { type := "a", value := "a" } = .ok (1, ["b", "S", "a"]) := by
  constructor
  · have h := (table_lookup_failure gA tblA "S" { type := "c", value := "c" }).1
      (Or.inl (by rfl))
    rw [h.1, h.2.2 (by decide)]
    rfl
  · exact (table_lookup_failure gA tblA "S" { type := "a", value := "a" }).2 1
      (by rfl) (by decide)

/-- C9: a present parsing-table cell holding the production number 0 is treated
exactly like an absent cell: the lookup raises the same unexpected-token (or
unexpected-end-of-input) error as a table with no entry there, and never
successfully derives, so the reserved production index 0 can never be derived. -/
theorem zero_cell_like_absent (g : Grammar) (tbl tbl2 : Table) (top : String)
    (token : Token) (h0 : tbl top token.type = some 0)
    (habs : tbl2 top token.type = none) :
    getDerivedRHS g tbl top token = .error (unexpectedTokenMessage token) ∧
    getDerivedRHS g tbl top token = getDerivedRHS g tbl2 top token ∧
    (∀ res, getDerivedRHS g tbl top token ≠ .ok res) := by
  have h1 := getDerivedRHS_fail g tbl top token (Or.inr h0)
  have h2 := getDerivedRHS_fail g tbl2 top token (Or.inl habs)
  refine ⟨h1, by rw [h1, h2], ?_⟩
  intro res hres
  rw [h1] at hres
  exact Except.noConfusion hres

/-- Witness for C9: the all-zero table and an empty table produce the same
unexpected-token error for (S, a). -/
theorem zero_cell_like_absent_witness :
    getDerivedRHS gA tbl0 "S" { type := "a", value := "a" } =
      getDerivedRHS gA (fun _ _ => none) "S" { type := "a", value := "a" } := by
  exact (zero_cell_like_absent gA tbl0 (fun _ _ => none) "S" { type := "a", value := "a" }
    (by rfl) (by rfl)).2.1

theorem mainLoop_g4_diverges (fuel : Nat) :
    ∀ ns : List Nat,
      mainLoop g4 tbl4 fuel
        { stack := [EOF, "S"], productionNumbers := ns, token := eofToken, input := [] } =
        none := by
  induction fuel with
  | zero => intro ns; rfl
  | succ n ih =>
    intro ns
    have hstep :
        mainLoop g4 tbl4 (n + 1)
          { stack := [EOF, "S"], productionNumbers := ns, token := eofToken, input := [] } =
        mainLoop g4 tbl4 n
          { stack := [EOF, "S"], productionNumbers := ns ++ [1], token := eofToken,
            input := [] } := by
      rfl
    rw [hstep]
    exact ih (ns ++ [1])

/-- C4: the end-of-input derivation phase of parse, which keeps deriving popped
stack symbols against the current (EOF) token until the stack collapses to one
entry, has no guard against a non-terminal that never resolves to epsilon:
for the grammar whose only production rewrites S to S and a table whose
lookups always succeed without shrinking the stack, parse diverges - it
returns no result at every fuel bound. -/
theorem epsilon_forcing_nontermination :
    ∃ (g : Grammar) (tbl : Table) (input : List Token),
      ∀ fuel : Nat, parse g tbl fuel input = none := by
  refine ⟨g4, tbl4, [eofToken], fun fuel => ?_⟩
  have h : mainLoop g4 tbl4 fuel (initState g4 [eofToken]) = none :=
    mainLoop_g4_diverges fuel []
  rw [parse, h]

/-- C1: parse initializes the stack to [EOF, StartSymbol] with EOF at the
bottom and clears the derivation trace; when the main loop and the end-of-input
derivation phase complete in some state, parse returns accept if and only if
that state's stack is exactly [EOF] and the current token's value is the EOF
marker, and otherwise fails with the diagnostic listing the remaining stack
symbols and the current token value. -/
theorem parse_accept_iff (g : Grammar) (tbl : Table) (fuel : Nat)
    (input : List Token) (st1 st2 : PState)
    (hmain : mainLoop g tbl fuel (initState g input) = some (.ok st1))
    (heps : epsLoop g tbl fuel st1 = some (.ok st2)) :
    (initState g input).stack = [EOF, g.startSymbol] ∧
    (initState g input).productionNumbers = [] ∧
    (parse g tbl fuel input = some (.ok "accept") ↔
      st2.stack = [EOF] ∧ st2.token.value = EOF) ∧
    (¬ (st2.stack = [EOF] ∧ st2.token.value = EOF) →
      parse g tbl fuel input = some (.error ("Parse error: stack is not empty: " ++
        String.intercalate "," st2.stack ++ ", " ++ st2.token.value))) := by
  have hlen : st2.stack.length = 1 := epsLoop_ok_length g tbl fuel st1 st2 heps
  obtain ⟨x, hx⟩ := List.length_eq_one.mp hlen
  have hparse : parse g tbl fuel input = some (finalCheck st2) := by
    simp only [parse, hmain, heps]
  refine ⟨rfl, rfl, ?_, ?_⟩
  · rw [hparse, finalCheck]
    by_cases hxe : x = EOF
    · by_cases hv : st2.token.value = EOF
      · rw [if_neg (by simp [hx, hxe, hv])]
        simp [hx, hxe, hv]
      · rw [if_pos (by simp [hv])]
        simp [hv]
    · rw [if_pos (by simp [hx, hxe])]
      simp [hx, hxe]
  · intro hne
    rw [hparse, finalCheck, if_pos ?_]
    rw [hx] at hne ⊢
    by_cases hxe : x = EOF
    · subst hxe
      simp at hne
      simp [hne]
    · simp [hxe]

/-- Witness for C1: the Scenario-A run (grammar S to a S b or epsilon, input
aabb) finishes both loops in the state stA, whose stack is [EOF] with the EOF
token current, so parse accepts. -/
theorem parse_accept_iff_witness :
    parse gA tblA 20 inputA = some (.ok "accept") := by
  have h := parse_accept_iff gA tblA 20 inputA stA stA (by rfl) (by rfl)
  exact h.2.2.1.mpr ⟨rfl, rfl⟩

end LLP

namespace Tok

theorem tryRules_first (env : LexEnv) (st : TokState) (string : String)
    (pre post : List Nat) (j : Nat) (m : String)
    (hpre : ∀ i ∈ pre, (env.lexRules i).1 string = none)
    (hj : (env.lexRules j).1 string = some m) :
    tryRules env st string (pre ++ j :: post) =
      handleMatch env (tmatch st string (env.lexRules j).1).1 string m
        (env.lexRules j).2 := by
  induction pre with
  | nil =>
    rw [List.nil_append, tryRules]
    simp only [tmatch, hj]
  | cons i pre ih =>
    rw [List.cons_append, tryRules]
    have hi : (env.lexRules i).1 string = none := hpre i (List.mem_cons_self i pre)
    simp only [tmatch, hi]
    exact ih (fun k hk => hpre k (List.mem_cons_of_mem i hk))

theorem getNextToken_scan_step (env : LexEnv) (st : TokState) (fuel : Nat)
    (pre post : List Nat) (j : Nat) (m : String)
    (hq : st.tokensQueue = [])
    (hmore : hasMoreTokens st = true)
    (hcond : env.lexRulesByConditions (getCurrentState st) = pre ++ j :: post)
    (hpre : ∀ i ∈ pre, (env.lexRules i).1 (strSlice st.string st.cursor) = none)
    (hj : (env.lexRules j).1 (strSlice st.string st.cursor) = some m) :
    (∀ st1,
      handleMatch env (tmatch st (strSlice st.string st.cursor) (env.lexRules j).1).1
        (strSlice st.string st.cursor) m (env.lexRules j).2 = .skip st1 →
      getNextToken env (fuel + 1) st = getNextToken env fuel st1) ∧
    (∀ t st1,
      handleMatch env (tmatch st (strSlice st.string st.cursor) (env.lexRules j).1).1
        (strSlice st.string st.cursor) m (env.lexRules j).2 = .emitted t st1 →
      getNextToken env (fuel + 1) st = some (.ok (t, st1))) := by
  have hscan :
      tryRules env st (strSlice st.string st.cursor)
        (env.lexRulesByConditions (getCurrentState st)) =
      handleMatch env (tmatch st (strSlice st.string st.cursor) (env.lexRules j).1).1
        (strSlice st.string st.cursor) m (env.lexRules j).2 := by
    rw [hcond]
    exact tryRules_first env st (strSlice st.string st.cursor) pre post j m hpre hj
  constructor
  · intro st1 hh
    rw [getNextToken, hq]
    simp only [hmore, Bool.not_true, Bool.false_eq_true, if_false, hscan, hh]
  · intro t st1 hh
    rw [getNextToken, hq]
    simp only [hmore, Bool.not_true, Bool.false_eq_true, if_false, hscan, hh]

/-- C2: getNextToken tries the matchers of the rules registered for the current
top-of-state in their fixed registered order; the first rule whose matcher
succeeds wins for any continuation of later rules (so regardless of any longer
match a later rule could produce), its handler alone is invoked, and the
getNextToken result is determined by that handler's outcome. -/
theorem first_match_wins (env : LexEnv) (st : TokState) (fuel : Nat)
    (pre post : List Nat) (j : Nat) (m : String)
    (hq : st.tokensQueue = [])
    (hmore : hasMoreTokens st = true)
    (hcond : env.lexRulesByConditions (getCurrentState st) = pre ++ j :: post)
    (hpre : ∀ i ∈ pre, (env.lexRules i).1 (strSlice st.string st.cursor) = none)
    (hj : (env.lexRules j).1 (strSlice st.string st.cursor) = some m) :
    (∀ later : List Nat,
      tryRules env st (strSlice st.string st.cursor) (pre ++ j :: later) =
        handleMatch env (tmatch st (strSlice st.string st.cursor) (env.lexRules j).1).1
          (strSlice st.string st.cursor) m (env.lexRules j).2) ∧
    (∀ st1,
      handleMatch env (tmatch st (strSlice st.string st.cursor) (env.lexRules j).1).1
        (strSlice st.string st.cursor) m (env.lexRules j).2 = .skip st1 →
      getNextToken env (fuel + 1) st = getNextToken env fuel st1) ∧
    (∀ t st1,
      handleMatch env (tmatch st (strSlice st.string st.cursor) (env.lexRules j).1).1
        (strSlice st.string st.cursor) m (env.lexRules j).2 = .emitted t st1 →
      getNextToken env (fuel + 1) st = some (.ok (t, st1))) := by
  refine ⟨?_, getNextToken_scan_step env st fuel pre post j m hq hmore hcond hpre hj⟩
  intro later
  exact tryRules_first env st (strSlice st.string st.cursor) pre later j m hpre hj

/-- Witness for C2: on the input abc with rules space / ab / abc registered in
that order, rule 1 (matching the two characters ab) wins over the later rule 2
although rule 2 would match the longer abc, and getNextToken returns the AB
token produced by rule 1's handler. -/
theorem first_match_wins_witness :
    tryRules env2 (initString "abc") (strSlice "abc" 0) ([0] ++ 1 :: [2]) =
      handleMatch env2
        (tmatch (initString "abc") (strSlice "abc" 0) (env2.lexRules 1).1).1
        (strSlice "abc" 0) "ab" (env2.lexRules 1).2 ∧
    getNextToken env2 4 (initString "abc") =
      some (.ok ({ type := 5, value := "ab", startOffset := 0, endOffset := 2,
                   startLine := 1, endLine := 1, startColumn := 0, endColumn := 2 },
        { initString "abc" with cursor := 2, tokenEndOffset := 2, tokenEndColumn := 2,
                                currentColumn := 2, yytext := "ab", yyleng := 2 })) := by
  have h := first_match_wins env2 (initString "abc") 3 [0] [2] 1 "ab"
    (by rfl) (by rfl) (by rfl)
    (by intro i hi; simp at hi; subst hi; rfl) (by rfl)
  refine ⟨h.1 [2], h.2.2 _ _ (by rfl)⟩

/-- C6: when the winning rule's handler returns an ordered sequence of
token-type names, getNextToken returns the first name immediately as a Token
whose value is the matched text and queues the remaining names in order ahead
of the old queue; the next getNextToken call dequeues the next queued name and
returns it as a Token built from the positional fields stored by that same
match, with the cursor and input string untouched (no re-scanning). -/
theorem multi_token_queue (env : LexEnv) (st st' : TokState) (fuel fuel2 : Nat)
    (pre post : List Nat) (j : Nat) (m first q : String) (qs : List String)
    (hq : st.tokensQueue = [])
    (hmore : hasMoreTokens st = true)
    (hcond : env.lexRulesByConditions (getCurrentState st) = pre ++ j :: post)
    (hpre : ∀ i ∈ pre, (env.lexRules i).1 (strSlice st.string st.cursor) = none)
    (hj : (env.lexRules j).1 (strSlice st.string st.cursor) = some m)
    (hhandler : (env.lexRules j).2
        (prepMatchState (tmatch st (strSlice st.string st.cursor) (env.lexRules j).1).1
          (strSlice st.string st.cursor) m) = (st', .tokens first (q :: qs))) :
    getNextToken env (fuel + 1) st =
      some (.ok (toToken env { st' with tokensQueue := (q :: qs) ++ st'.tokensQueue } first m,
        { st' with tokensQueue := (q :: qs) ++ st'.tokensQueue })) ∧
    getNextToken env (fuel2 + 1) { st' with tokensQueue := (q :: qs) ++ st'.tokensQueue } =
      some (.ok (toToken env { st' with tokensQueue := (q :: qs) ++ st'.tokensQueue } q "",
        { st' with tokensQueue := qs ++ st'.tokensQueue })) ∧
    ((toToken env { st' with tokensQueue := (q :: qs) ++ st'.tokensQueue } q "").startOffset =
        (toToken env { st' with tokensQueue := (q :: qs) ++ st'.tokensQueue } first m).startOffset ∧
      (toToken env { st' with tokensQueue := (q :: qs) ++ st'.tokensQueue } q "").endOffset =
        (toToken env { st' with tokensQueue := (q :: qs) ++ st'.tokensQueue } first m).endOffset ∧
      (toToken env { st' with tokensQueue := (q :: qs) ++ st'.tokensQueue } q "").startLine =
        (toToken env { st' with tokensQueue := (q :: qs) ++ st'.tokensQueue } first m).startLine ∧
      (toToken env { st' with tokensQueue := (q :: qs) ++ st'.tokensQueue } q "").endLine =
        (toToken env { st' with tokensQueue := (q :: qs) ++ st'.tokensQueue } first m).endLine ∧
      (toToken env { st' with tokensQueue := (q :: qs) ++ st'.tokensQueue } q "").startColumn =
        (toToken env { st' with tokensQueue := (q :: qs) ++ st'.tokensQueue } first m).startColumn ∧
      (toToken env { st' with tokensQueue := (q :: qs) ++ st'.tokensQueue } q "").endColumn =
        (toToken env { st' with tokensQueue := (q :: qs) ++ st'.tokensQueue } first m).endColumn) ∧
    ({ st' with tokensQueue := qs ++ st'.tokensQueue }.cursor =
        { st' with tokensQueue := (q :: qs) ++ st'.tokensQueue }.cursor ∧
      { st' with tokensQueue := qs ++ st'.tokensQueue }.string =
        { st' with tokensQueue := (q :: qs) ++ st'.tokensQueue }.string) := by
  have hh : handleMatch env (tmatch st (strSlice st.string st.cursor) (env.lexRules j).1).1
      (strSlice st.string st.cursor) m (env.lexRules j).2 =
      .emitted (toToken env { st' with tokensQueue := (q :: qs) ++ st'.tokensQueue } first m)
        { st' with tokensQueue := (q :: qs) ++ st'.tokensQueue } := by
    rw [handleMatch, hhandler]
    simp
  refine ⟨?_, ?_, ⟨rfl, rfl, rfl, rfl, rfl, rfl⟩, rfl, rfl⟩
  · exact (getNextToken_scan_step env st fuel pre post j m hq hmore hcond hpre hj).2 _ _ hh
  · rfl

/-- Witness for C6: the brace rule of mEnv returns [LBRACE, STRING] for the
single match of an opening brace; the first getNextToken call returns the
LBRACE token with the matched text, the second returns the STRING token with
the same location data and an empty queue, scanning nothing new. -/
theorem multi_token_queue_witness :
    getNextToken mEnv 5 (initString "\x7b") =
      some (.ok ({ type := 5, value := "\x7b", startOffset := 0, endOffset := 1,
                   startLine := 1, endLine := 1, startColumn := 0, endColumn := 1 },
        { initString "\x7b" with cursor := 1, tokensQueue := ["STRING"],
                                 tokenEndOffset := 1, tokenEndColumn := 1,
                                 currentColumn := 1, yytext := "\x7b", yyleng := 1 })) ∧
    getNextToken mEnv 5
      { initString "\x7b" with cursor := 1, tokensQueue := ["STRING"],
                               tokenEndOffset := 1, tokenEndColumn := 1,
                               currentColumn := 1, yytext := "\x7b", yyleng := 1 } =
      some (.ok ({ type := 6, value := "", startOffset := 0, endOffset := 1,
                   startLine := 1, endLine := 1, startColumn := 0, endColumn := 1 },
        { initString "\x7b" with cursor := 1, tokensQueue := [],
                                 tokenEndOffset := 1, tokenEndColumn := 1,
                                 currentColumn := 1, yytext := "\x7b", yyleng := 1 })) := by
  have h := multi_token_queue mEnv (initString "\x7b")
    { initString "\x7b" with cursor := 1, tokenEndOffset := 1, tokenEndColumn := 1,
                             currentColumn := 1, yytext := "\x7b", yyleng := 1 }
    4 4 [0] [] 1 "\x7b" "LBRACE" "STRING" []
    (by rfl) (by rfl) (by rfl)
    (by intro i hi; simp at hi; subst hi; rfl) (by rfl) (by rfl)
  exact ⟨h.1, h.2.1⟩

/-- C10: a Token materialized from the token queue is built by _toToken with
the default empty yytext, so its value field is the empty string; a token
emitted directly for a match (the first of the handler's names) carries the
matched text as its value. -/
theorem queued_token_empty_value (env : LexEnv) (st st0 : TokState) (fuel : Nat)
    (string m : String) (handler : LexHandler) :
    (∀ q qs, st.tokensQueue = q :: qs →
      getNextToken env (fuel + 1) st =
        some (.ok (toToken env st q "", { st with tokensQueue := qs })) ∧
      (toToken env st q "").value = "") ∧
    (∀ t st1, handleMatch env st0 string m handler = .emitted t st1 → t.value = m) := by
  constructor
  · intro q qs hq
    constructor
    · rw [getNextToken, hq]
    · rfl
  · intro t st1 hh
    rw [handleMatch] at hh
    cases hres : (handler (prepMatchState st0 string m)).2 with
    | nothing => rw [hres] at hh; exact TryOutcome.noConfusion hh
    | token name =>
      rw [hres] at hh
      have ht := (TryOutcome.emitted.injEq ..).mp hh
      rw [← ht.1]
      rfl
    | tokens first rest =>
      rw [hres] at hh
      have ht := (TryOutcome.emitted.injEq ..).mp hh
      rw [← ht.1]
      rfl

/-- Witness for C10: dequeuing the STRING name queued by the brace match of
mEnv yields a token whose value is the empty string, while the match-emitted
LBRACE token carries the matched brace text. -/
theorem queued_token_empty_value_witness :
    getNextToken mEnv 5
      { initString "\x7b" with cursor := 1, tokensQueue := ["STRING"],
                               tokenEndOffset := 1, tokenEndColumn := 1,
                               currentColumn := 1, yytext := "\x7b", yyleng := 1 } =
      some (.ok ({ type := 6, value := "", startOffset := 0, endOffset := 1,
                   startLine := 1, endLine := 1, startColumn := 0, endColumn := 1 },
        { initString "\x7b" with cursor := 1, tokensQueue := [],
                                 tokenEndOffset := 1, tokenEndColumn := 1,
                                 currentColumn := 1, yytext := "\x7b", yyleng := 1 })) ∧
    (toToken mEnv
      { initString "\x7b" with cursor := 1, tokensQueue := ["STRING"],
                               tokenEndOffset := 1, tokenEndColumn := 1,
                               currentColumn := 1, yytext := "\x7b", yyleng := 1 }
      "STRING" "").value = "" := by
  have h := (queued_token_empty_value mEnv
    { initString "\x7b" with cursor := 1, tokensQueue := ["STRING"],
                             tokenEndOffset := 1, tokenEndColumn := 1,
                             currentColumn := 1, yytext := "\x7b", yyleng := 1 }
    (initString "\x7b") 4 "\x7b" "\x7b" (mEnv.lexRules 1).2).1 "STRING" [] (by rfl)
  exact h

/-- Relevant lemma for the state-stack invariant: every single pushState,
popState or begin call preserves a non-empty lexer-state stack. -/
theorem applyStateOp_length (st : TokState) (op : StateOp)
    (h : 1 ≤ st.states.length) : 1 ≤ (applyStateOp st op).states.length := by
  cases op with
  | push s => simp [applyStateOp, pushState]
  | beginOp s => simp [applyStateOp, begin, pushState]
  | pop =>
    simp only [applyStateOp, popState]
    by_cases h1 : 1 < st.states.length
    · rw [if_pos h1]
      simp only [List.length_dropLast]
      omega
    · rw [if_neg h1]
      exact h

theorem foldl_stateOps_length (ops : List StateOp) :
    ∀ st : TokState, 1 ≤ st.states.length →
      1 ≤ (ops.foldl applyStateOp st).states.length := by
  induction ops with
  | nil => intro st h; exact h
  | cons op ops ih =>
    intro st h
    rw [List.foldl_cons]
    exact ih (applyStateOp st op) (applyStateOp_length st op h)

/-- C7: after initString the lexer-state stack is exactly [INITIAL]; under any
sequence of pushState, popState and begin calls its length never drops below 1;
popState is a no-op when a single state remains; begin is an alias for
pushState; and pushState immediately followed by popState restores the whole
previous state (the previous top-of-stack in particular). -/
theorem state_stack_invariant (s x : String) (st : TokState) (ops : List StateOp)
    (h : 1 ≤ st.states.length) :
    (initString s).states = ["INITIAL"] ∧
    1 ≤ (ops.foldl applyStateOp st).states.length ∧
    (st.states.length = 1 → (popState st).2 = st) ∧
    begin st x = pushState st x ∧
    (popState (pushState st x)).2 = st ∧
    getCurrentState (popState (pushState st x)).2 = getCurrentState st := by
  have hpop : (popState (pushState st x)).2 = st := by
    have hlen : 1 < (st.states ++ [x]).length := by
      rw [List.length_append]
      simp only [List.length_cons, List.length_nil]
      omega
    simp only [popState, pushState, List.dropLast_concat]
    rw [if_pos hlen]
  refine ⟨rfl, foldl_stateOps_length ops st h, ?_, rfl, hpop, by rw [hpop]⟩
  intro h1
  simp only [popState, h1]
  rw [if_neg (by omega)]

/-- Witness for C7: starting from initString, pushing the state comment and
popping it restores the INITIAL-only stack, and the invariant holds for that
push/pop sequence. -/
theorem state_stack_invariant_witness :
    (initString "ab").states = ["INITIAL"] ∧
    1 ≤ (([StateOp.push "comment", StateOp.pop].foldl applyStateOp
      (initString "ab")).states.length) ∧
    (popState (pushState (initString "ab") "comment")).2 = initString "ab" := by
  have h := state_stack_invariant "ab" "comment" (initString "ab")
    [StateOp.push "comment", StateOp.pop] (by rfl)
  exact ⟨h.1, h.2.1, h.2.2.2.2.1⟩

end Tok

namespace Gen

/-- C8: a declared key type other than string or number makes _dictKey raise
the generation-time incorrect-type error naming that type, and a non-array
value with a declared value type other than string or number makes _dictValue
raise the incorrect-value error naming that type; string and number keys,
string and number values, and integer-array values never raise. -/
theorem dict_conversion_errors (key keyType valueType : String) (v : JSVal)
    (hk1 : keyType ≠ "string") (hk2 : keyType ≠ "number")
    (hv1 : valueType ≠ "string") (hv2 : valueType ≠ "number")
    (hva : ∀ l, v ≠ JSVal.arr l) :
    dictKey key keyType = .error ("_dictKey: Incorrect type " ++ keyType) ∧
    dictValue v valueType = .error ("_dictValue: Incorrect value " ++ valueType) ∧
    (∀ k, isOkE (dictKey k "string") = true ∧ isOkE (dictKey k "number") = true) ∧
    (∀ w, isOkE (dictValue w "string") = true ∧ isOkE (dictValue w "number") = true) ∧
    (∀ (l : List Int) (t : String), isOkE (dictValue (JSVal.arr l) t) = true) := by
  refine ⟨?_, ?_, ?_, ?_, ?_⟩
  · unfold dictKey
    split
    · exact absurd rfl hk1
    · exact absurd rfl hk2
    · rfl
  · unfold dictValue
    split
    · rename_i l
      exact absurd rfl (hva l)
    · split
      · exact absurd rfl hv1
      · exact absurd rfl hv2
      · rfl
  · intro k
    exact ⟨rfl, rfl⟩
  · intro w
    cases w <;> exact ⟨rfl, rfl⟩
  · intro l t
    rfl

/-- Witness for C8: a boolean key type and an object value type raise the
respective naming errors, while supported shapes convert. -/
theorem dict_conversion_errors_witness :
    dictKey "x" "boolean" = .error "_dictKey: Incorrect type boolean" ∧
    dictValue (JSVal.str "y") "object" = .error "_dictValue: Incorrect value object" ∧
    isOkE (dictValue (JSVal.arr [1, 2]) "object") = true := by
  have h := dict_conversion_errors "x" "boolean" "object" (JSVal.str "y")
    (by decide) (by decide) (by decide) (by decide)
    (by intro l hl; exact JSVal.noConfusion hl)
  exact ⟨h.1, h.2.1, h.2.2.2.2 [1, 2] "object"⟩

end Gen
